import Mathlib

/-!
Shallow embedding of the libdns provider adapters in this repository:
the NameSilo adapter (provider.go), the Dinahosting adapter
(unnamed/part_003, with an earlier stub in unnamed/part_002) and the
ddnss adapter helpers (unnamed/part_001).

HTTP transport is modelled by a response oracle: each vendor operation
receives a function from the index of the HTTP call it is about to make
(counted from the start of the top-level operation) to the parsed vendor
response for that call.  Request-construction failures, transport
failures and body-decoding failures are not modelled; the oracle always
delivers a parsed response (those failure paths abort the operation just
like a non-success response and no claim depends on them).  Every
operation returns, besides its result, the list of vendor HTTP calls it
issued, in the order it issued them.
-/

set_option autoImplicit false

namespace LibdnsProviders

/-- The normalized libdns record (libdns.Record).  `ttl` is the Go
`time.Duration` in nanoseconds, `priority` the Go `int`. -/
structure Record where
  id : String
  type : String
  name : String
  value : String
  ttl : Int
  priority : Int
deriving DecidableEq, Repr

/-! ## Dinahosting adapter (unnamed/part_003) -/

/-- One entry of the `data` array of a parsed Dinahosting API response
(the anonymous struct inside `dinaResponse`). -/
structure DinaApiRecord where
  recordType : String
  hostname : String
  destinationHostname : String
  ip : String
  address : String
  text : String
deriving DecidableEq, Repr

/-- A parsed Dinahosting API response (`dinaResponse`): the fields the
adapter reads.  A call succeeded iff `message = "Success."`. -/
structure DinaResponse where
  message : String
  responseCode : Int
  data : List DinaApiRecord
deriving DecidableEq, Repr

/-- A vendor HTTP call issued by the Dinahosting adapter, identified by
its `command` query parameter and the record parameters added by
`buildQueryWithRecord` (hostname plus ip/text/value).  The constant
query parameters (AUTH_USER, AUTH_PWD, domain, responseType) carry no
per-record information and are omitted. -/
inductive DinaCall where
  | getAll
  | addA (hostname ip : String)
  | addTXT (hostname text : String)
  | deleteA (hostname ip : String)
  | deleteTXT (hostname value : String)
deriving DecidableEq, Repr

/-- Whether a Dinahosting call is a record creation (Domain_Zone_AddType*). -/
def DinaCall.isAdd : DinaCall → Bool
  | .addA _ _ => true
  | .addTXT _ _ => true
  | _ => false

/-- Whether a Dinahosting call is a record deletion (Domain_Zone_DeleteType*). -/
def DinaCall.isDelete : DinaCall → Bool
  | .deleteA _ _ => true
  | .deleteTXT _ _ => true
  | _ => false

/-- Errors returned by the Dinahosting adapter, one constructor per
`fmt.Errorf` site (transport/parse failures are not modelled). -/
inductive DinaErr where
  | emptyInput
  | getFailed (code : Int)
  | unsupportedCreate (recordType : String)
  | unsupportedDelete (recordType : String)
  | createFailed (recordType : String) (code : Int)
  | deleteFailed (recordType : String) (code : Int)
deriving DecidableEq, Repr

/-- Value selection of Dinahosting GetRecords: the first non-empty field
among destinationHostname, ip, address, text (the API names the value
field differently per record type). -/
def dinaValueOf (a : DinaApiRecord) : String :=
  if a.destinationHostname ≠ "" then a.destinationHostname
  else if a.ip ≠ "" then a.ip
  else if a.address ≠ "" then a.address
  else if a.text ≠ "" then a.text
  else ""

/-- How Dinahosting GetRecords (both in unnamed/part_003 and in the
earlier unnamed/part_002) turns the response `data` into libdns records:
only Type, Name and Value are set; ID, TTL and Priority keep their zero
values. -/
def dinaParseRecords (data : List DinaApiRecord) : List Record :=
  data.map fun a => { id := "", type := a.recordType, name := a.hostname,
                      value := dinaValueOf a, ttl := 0, priority := 0 }

/-- Dinahosting GetRecords: one Domain_Zone_GetAll call; succeeds iff the
response message is "Success.". -/
def dinaGetRecords (resp : DinaResponse) : Except DinaErr (List Record) :=
  if resp.message = "Success." then .ok (dinaParseRecords resp.data)
  else .error (.getFailed resp.responseCode)

/-- The creation call Dinahosting AppendRecords builds for a record of a
supported type (TXT branch tested first, as in the source). -/
def dinaAddCallOf (r : Record) : DinaCall :=
  if r.type = "TXT" then .addTXT r.name r.value else .addA r.name r.value

/-- The deletion call Dinahosting DeleteRecords builds for a record of a
supported type (TXT branch tested first, as in the source). -/
def dinaDeleteCallOf (r : Record) : DinaCall :=
  if r.type = "TXT" then .deleteTXT r.name r.value else .deleteA r.name r.value

/-- The per-record loop of Dinahosting AppendRecords: unsupported type
aborts before any call for that record; otherwise one Add call is made
and a non-"Success." response aborts.  `k` is the index of the next HTTP
call of the enclosing top-level operation. -/
def dinaAppendLoop (resp : Nat → DinaResponse) (k : Nat) :
    List Record → Except DinaErr (List Record) × List DinaCall
  | [] => (.ok [], [])
  | r :: rest =>
    if r.type ≠ "TXT" ∧ r.type ≠ "A" then
      (.error (.unsupportedCreate r.type), [])
    else
      if (resp k).message = "Success." then
        match dinaAppendLoop resp (k + 1) rest with
        | (.ok rs, calls) => (.ok (r :: rs), dinaAddCallOf r :: calls)
        | (.error e, calls) => (.error e, dinaAddCallOf r :: calls)
      else
        (.error (.createFailed r.type (resp k).responseCode), [dinaAddCallOf r])

/-- Dinahosting AppendRecords: rejects an empty input list, then runs the
per-record creation loop. -/
def dinaAppendRecords (resp : Nat → DinaResponse) (k : Nat)
    (records : List Record) : Except DinaErr (List Record) × List DinaCall :=
  if records = [] then (.error .emptyInput, [])
  else dinaAppendLoop resp k records

/-- Dinahosting DeleteRecords: per-record loop, no empty-input check;
unsupported type aborts before any call for that record; otherwise one
Delete call is made and a non-"Success." response aborts. -/
def dinaDeleteRecords (resp : Nat → DinaResponse) (k : Nat) :
    List Record → Except DinaErr (List Record) × List DinaCall
  | [] => (.ok [], [])
  | r :: rest =>
    if r.type ≠ "TXT" ∧ r.type ≠ "A" then
      (.error (.unsupportedDelete r.type), [])
    else
      if (resp k).message = "Success." then
        match dinaDeleteRecords resp (k + 1) rest with
        | (.ok rs, calls) => (.ok (r :: rs), dinaDeleteCallOf r :: calls)
        | (.error e, calls) => (.error e, dinaDeleteCallOf r :: calls)
      else
        (.error (.deleteFailed r.type (resp k).responseCode), [dinaDeleteCallOf r])

/-- The inner loop of Dinahosting SetRecords for one desired record,
with the `saved` flag of the source; returns the contributions this
record makes to `toDelete` and `results` (the loop only ever appends to
those slices).  `break` on an exact match is the early return. -/
def dinaInner (record : Record) : List Record → Bool → List Record × List Record
  | [], _ => ([], [])
  | e :: rest, saved =>
    if saved then dinaInner record rest saved
    else if record.name = e.name ∧ record.type = e.type ∧ record.value ≠ e.value then
      let (td, rs) := dinaInner record rest true
      (e :: td, record :: rs)
    else if record.name = e.name ∧ record.type = e.type ∧ record.value = e.value then
      ([], [])
    else
      let (td, rs) := dinaInner record rest true
      (td, record :: rs)

/-- The outer classification loop of Dinahosting SetRecords: the
`toDelete` and `results` slices are the concatenated per-record
contributions, in desired-list order. -/
def dinaPlanLoop (existing : List Record) : List Record → List Record × List Record
  | [] => ([], [])
  | r :: rest =>
    let head := dinaInner r existing false
    let tail := dinaPlanLoop existing rest
    (head.1 ++ tail.1, head.2 ++ tail.2)

/-- Dinahosting SetRecords: rejects empty input, fetches the zone
(call 0), runs the classification loop, deletes `toDelete` when
non-empty, then unconditionally calls AppendRecords on `results` and
returns `results` (not AppendRecords' return value). -/
def dinaSetRecords (resp : Nat → DinaResponse) (records : List Record) :
    Except DinaErr (List Record) × List DinaCall :=
  if records = [] then (.error .emptyInput, [])
  else
    match dinaGetRecords (resp 0) with
    | .error e => (.error e, [.getAll])
    | .ok existing =>
      if (dinaPlanLoop existing records).1 ≠ [] then
        match dinaDeleteRecords resp 1 (dinaPlanLoop existing records).1 with
        | (.error e, dcalls) => (.error e, .getAll :: dcalls)
        | (.ok _, dcalls) =>
          match dinaAppendRecords resp (1 + dcalls.length) (dinaPlanLoop existing records).2 with
          | (.error e, acalls) => (.error e, .getAll :: (dcalls ++ acalls))
          | (.ok _, acalls) => (.ok (dinaPlanLoop existing records).2, .getAll :: (dcalls ++ acalls))
      else
        match dinaAppendRecords resp 1 (dinaPlanLoop existing records).2 with
        | (.error e, acalls) => (.error e, .getAll :: acalls)
        | (.ok _, acalls) => (.ok (dinaPlanLoop existing records).2, .getAll :: acalls)

/-! ## NameSilo adapter (provider.go) -/

/-- One `resource_record` element of a parsed NameSilo dnsListRecords
response (the anonymous struct in GetRecords). -/
structure NsApiRecord where
  id : String
  type : String
  name : String
  value : String
  ttl : Int
  priority : Int
deriving DecidableEq, Repr

/-- A parsed NameSilo XML reply: the common code/detail, the record_id
returned by dnsAddRecord/dnsUpdateRecord, and the record list returned
by dnsListRecords.  A call succeeded iff `code = 300`. -/
structure NsReply where
  code : Int
  detail : String
  recordId : String
  records : List NsApiRecord
deriving DecidableEq, Repr

/-- A vendor HTTP call issued by the NameSilo adapter.  Each request URL
is fully determined by the API token, the domain (zone without trailing
dot) and the fields recorded here: `add` carries the record whose
rrtype/rrhost/rrvalue (and rrttl, rrdistance when non-zero) fill the
dnsAddRecord query; `update` carries the record whose
rrid/rrhost/rrvalue (and rrttl, rrdistance when non-zero) fill the
dnsUpdateRecord query; `delete` carries only the rrid. -/
inductive NsCall where
  | list (zone : String)
  | add (zone : String) (record : Record)
  | update (zone : String) (record : Record)
  | delete (zone : String) (rrid : String)
deriving DecidableEq, Repr

/-- Whether a NameSilo call is a dnsDeleteRecord call. -/
def NsCall.isDelete : NsCall → Bool
  | .delete _ _ => true
  | _ => false

/-- Errors returned by the NameSilo adapter, one constructor per
`fmt.Errorf` site that depends on a vendor response or on
classification (transport/parse failures are not modelled).  The
in-place update loop of SetRecords reuses the "failed to append record"
message, hence `appendFailed` for both. -/
inductive NsErr where
  | getFailed (zone : String) (code : Int) (detail : String)
  | recordNotExists (record : Record)
  | appendFailed (zone : String) (code : Int) (detail : String)
  | deleteFailed (zone : String) (code : Int) (detail : String)
deriving DecidableEq, Repr

/-- How NameSilo GetRecords turns the reply records into libdns records:
the XML ttl (seconds) becomes a Go time.Duration in nanoseconds. -/
def nsParseRecords (rs : List NsApiRecord) : List Record :=
  rs.map fun a => { id := a.id, type := a.type, name := a.name,
                    value := a.value, ttl := a.ttl * 1000000000,
                    priority := a.priority }

/-- The per-record loop of NameSilo AppendRecords: one dnsAddRecord call
per record; on success the record gets the response record_id; a
non-300 code aborts. -/
def nsAppendLoop (zone : String) (resp : Nat → NsReply) (k : Nat) :
    List Record → Except NsErr (List Record) × List NsCall
  | [] => (.ok [], [])
  | r :: rest =>
    if (resp k).code = 300 then
      match nsAppendLoop zone resp (k + 1) rest with
      | (.ok rs, calls) => (.ok ({ r with id := (resp k).recordId } :: rs), .add zone r :: calls)
      | (.error e, calls) => (.error e, .add zone r :: calls)
    else
      (.error (.appendFailed zone (resp k).code (resp k).detail), [.add zone r])

/-- NameSilo AppendRecords (it has no empty-input check). -/
def nsAppendRecords (zone : String) (resp : Nat → NsReply)
    (records : List Record) : Except NsErr (List Record) × List NsCall :=
  nsAppendLoop zone resp 0 records

/-- The update loop of NameSilo SetRecords: one dnsUpdateRecord call per
id-bearing record; on success the record gets the response record_id; a
non-300 code aborts (with the "failed to append record" message of the
source). -/
def nsUpdateLoop (zone : String) (resp : Nat → NsReply) (k : Nat) :
    List Record → Except NsErr (List Record) × List NsCall
  | [] => (.ok [], [])
  | r :: rest =>
    if (resp k).code = 300 then
      match nsUpdateLoop zone resp (k + 1) rest with
      | (.ok rs, calls) => (.ok ({ r with id := (resp k).recordId } :: rs), .update zone r :: calls)
      | (.error e, calls) => (.error e, .update zone r :: calls)
    else
      (.error (.appendFailed zone (resp k).code (resp k).detail), [.update zone r])

/-- The classification loop of NameSilo SetRecords: empty-id records go
to `newRecords`, id-bearing records whose id is a key of
existingRecordsMap go to `changedRecords`, and the first id-bearing
record whose id is not a key aborts.  Key membership in the map built
from all existing records equals membership of the id in the list of
existing ids (later duplicates overwrite the entry but never remove the
key). -/
def nsClassify (ids : List String) :
    List Record → Except Record (List Record × List Record)
  | [] => .ok ([], [])
  | r :: rest =>
    if r.id = "" then
      match nsClassify ids rest with
      | .ok (ns, cs) => .ok (r :: ns, cs)
      | .error e => .error e
    else if ids.contains r.id then
      match nsClassify ids rest with
      | .ok (ns, cs) => .ok (ns, r :: cs)
      | .error e => .error e
    else .error r

/-- NameSilo SetRecords: fetch the zone (call 0), classify desired
records by id, create the empty-id records via AppendRecords, then
update the id-bearing records in place via dnsUpdateRecord; returns the
created records followed by the updated ones. -/
def nsSetRecords (zone : String) (resp : Nat → NsReply)
    (records : List Record) : Except NsErr (List Record) × List NsCall :=
  if (resp 0).code = 300 then
    match nsClassify ((nsParseRecords (resp 0).records).map Record.id) records with
    | .error r => (.error (.recordNotExists r), [.list zone])
    | .ok (newRecords, changedRecords) =>
      match nsAppendLoop zone resp 1 newRecords with
      | (.error e, acalls) => (.error e, .list zone :: acalls)
      | (.ok created, acalls) =>
        match nsUpdateLoop zone resp (1 + acalls.length) changedRecords with
        | (.error e, ucalls) => (.error e, .list zone :: (acalls ++ ucalls))
        | (.ok updated, ucalls) =>
          (.ok (created ++ updated), .list zone :: (acalls ++ ucalls))
  else
    (.error (.getFailed zone (resp 0).code (resp 0).detail), [.list zone])

/-- NameSilo DeleteRecords: one dnsDeleteRecord call per input record,
its URL built from record.ID only; on success the input record itself is
appended to the returned list; a non-300 code aborts. -/
def nsDeleteRecords (zone : String) (resp : Nat → NsReply) (k : Nat) :
    List Record → Except NsErr (List Record) × List NsCall
  | [] => (.ok [], [])
  | r :: rest =>
    if (resp k).code = 300 then
      match nsDeleteRecords zone resp (k + 1) rest with
      | (.ok rs, calls) => (.ok (r :: rs), .delete zone r.id :: calls)
      | (.error e, calls) => (.error e, .delete zone r.id :: calls)
    else
      (.error (.deleteFailed zone (resp k).code (resp k).detail), [.delete zone r.id])

/-! ## ddnss adapter (unnamed/part_001) -/

/-- The vendor HTTP call of the ddnss adapter: a GET on
https://ddnss.de/upd.php, determined by the host query parameter (the
main domain), the record-value parameter (its key is txt, ip or ipv6
according to the record type) and the txtm mode ("1" set, "2" clear).
The constant parameters (key, verbose) are omitted. -/
structure DdnssCall where
  host : String
  paramKey : String
  paramValue : String
  txtm : String
deriving DecidableEq, Repr

/-- Errors of the ddnss setRecord path (transport and HTML-scrape
failures are collapsed into `requestFailed`). -/
inductive DdnssErr where
  | unsupportedType (recordType : String)
  | noMainDomain (domain : String)
  | requestFailed
deriving DecidableEq, Repr

/-- libdns.AbsoluteName, an external helper of the libdns library (not
part of this repository): empty or "@" names denote the zone itself,
any other name is prepended to the zone. -/
def absoluteName (name zone : String) : String :=
  if name = "" ∨ name = "@" then zone else name ++ "." ++ zone

/-- getMainDomain of the ddnss adapter: strings.TrimSuffix(domain, ".")
followed by strings.TrimLeft(domain, "_acme-challenge.") — TrimLeft
removes leading characters drawn from the cutset. -/
def getMainDomain (domain : String) : String :=
  let trimmed := if domain.endsWith "." then domain.dropRight 1 else domain
  String.mk (trimmed.toList.dropWhile fun c => c ∈ "_acme-challenge.".toList)

/-- The ddnss setRecord helper: picks the value parameter key by record
type, rejecting unsupported types before any HTTP request; txtm is "2"
when clearing, otherwise "1"; doRequest then fails before the HTTP call
when the main domain is empty, and otherwise makes exactly one call
whose success (an "Updated ..." font node in the scraped HTML body) is
given by the oracle `ok`. -/
def ddnssSetRecord (zone : String) (record : Record) (clear : Bool)
    (ok : Bool) : Except DdnssErr Unit × List DdnssCall :=
  let domain := absoluteName record.name zone
  let paramKey? : Option String :=
    if record.type = "TXT" then some "txt"
    else if record.type = "A" then some "ip"
    else if record.type = "AAAA" then some "ipv6"
    else none
  match paramKey? with
  | none => (.error (.unsupportedType record.type), [])
  | some paramKey =>
    let txtm := if clear then "2" else "1"
    let mainDomain := getMainDomain domain
    if mainDomain = "" then (.error (.noMainDomain domain), [])
    else
      let call : DdnssCall := ⟨mainDomain, paramKey, record.value, txtm⟩
      if ok then (.ok (), [call]) else (.error .requestFailed, [call])

/-! ## Derived definitions used in theorem statements -/

/-- Exact match on the (name, type, value) identity key. -/
def dinaExact (d e : Record) : Bool :=
  d.name == e.name && d.type == e.type && d.value == e.value

/-- The `toDelete` slice a Dinahosting SetRecords call computes: the
prior versions of the Changed bucket, in desired-list order (empty when
the zone fetch fails). -/
def dinaToDelete (resp : Nat → DinaResponse) (records : List Record) : List Record :=
  match dinaGetRecords (resp 0) with
  | .ok existing => (dinaPlanLoop existing records).1
  | .error _ => []

/-! ## Concrete fixtures (vendor states and oracles used in concrete
theorems and witnesses) -/

/-- A Dinahosting vendor whose zone holds exactly one A record
test → 1.1.1.1 and which answers every call with "Success.". -/
def dinaRespOneA : Nat → DinaResponse :=
  fun _ => ⟨"Success.", 1000, [⟨"A", "test", "", "1.1.1.1", "", ""⟩]⟩

/-- A Dinahosting vendor whose zone holds the A records b → 9 and a → 1
(in that order) and which answers every call with "Success.". -/
def dinaRespTwoA : Nat → DinaResponse :=
  fun _ => ⟨"Success.", 0, [⟨"A", "b", "", "9", "", ""⟩, ⟨"A", "a", "", "1", "", ""⟩]⟩

/-- A Dinahosting vendor with an empty zone answering "Success."
everywhere. -/
def dinaRespEmptyOk : Nat → DinaResponse := fun _ => ⟨"Success.", 0, []⟩

/-- A Dinahosting vendor whose second call (index 1) fails with code 42
while every other call succeeds. -/
def dinaRespFailSecond : Nat → DinaResponse :=
  fun i => if i = 1 then ⟨"KO", 42, []⟩ else ⟨"Success.", 0, []⟩

/-- A NameSilo vendor whose zone holds one A record with id 5,
test → 1.1.1.1, and which answers every further call with code 300 and
record_id 7. -/
def nsRespChanged : Nat → NsReply :=
  fun i => if i = 0 then ⟨300, "", "", [⟨"5", "A", "test", "1.1.1.1", 0, 0⟩]⟩
           else ⟨300, "", "7", []⟩

/-- A NameSilo vendor answering every call with code 300 and
record_id 9. -/
def nsRespAllOk : Nat → NsReply := fun _ => ⟨300, "", "9", []⟩

/-- A NameSilo vendor answering every call with failure code 280. -/
def nsRespFailAll : Nat → NsReply := fun _ => ⟨280, "bad", "", []⟩

/-- A NameSilo vendor whose second call (index 1) fails with code 280
while every other call succeeds. -/
def nsRespFailSecond : Nat → NsReply :=
  fun i => if i = 1 then ⟨280, "bad", "", []⟩ else ⟨300, "", "id7", []⟩

/-! ## Helper lemmas -/

theorem dinaInner_saved (r : Record) :
    ∀ l : List Record, dinaInner r l true = ([], []) := by
  intro l
  induction l with
  | nil => rfl
  | cons e rest ih => simp [dinaInner, ih]

theorem dinaInner_cons (r e : Record) (rest : List Record) :
    dinaInner r (e :: rest) false =
      if r.name = e.name ∧ r.type = e.type ∧ r.value ≠ e.value then ([e], [r])
      else if r.name = e.name ∧ r.type = e.type ∧ r.value = e.value then ([], [])
      else ([], [r]) := by
  simp only [dinaInner, dinaInner_saved, Bool.false_eq_true, if_false]

theorem dinaExact_iff (d e : Record) :
    dinaExact d e = true ↔ d.name = e.name ∧ d.type = e.type ∧ d.value = e.value := by
  simp [dinaExact, and_assoc]

theorem dinaPlanLoop_results (existing : List Record) :
    ∀ records : List Record,
      (dinaPlanLoop existing records).2 =
        match existing with
        | [] => []
        | e :: _ => records.filter fun d => !(dinaExact d e) := by
  intro records
  induction records with
  | nil => cases existing <;> rfl
  | cons r rest ih =>
    cases existing with
    | nil =>
      simp only [dinaPlanLoop]
      rw [ih]
      rfl
    | cons e tail =>
      simp only [dinaPlanLoop, dinaInner_cons]
      rw [ih]
      by_cases h1 : r.name = e.name
      · by_cases h2 : r.type = e.type
        · by_cases h3 : r.value = e.value
          · have hx : dinaExact r e = true := (dinaExact_iff r e).mpr ⟨h1, h2, h3⟩
            simp [h1, h2, h3, List.filter_cons, hx]
          · have hx : dinaExact r e = false :=
              Bool.eq_false_iff.mpr fun h => h3 ((dinaExact_iff r e).mp h).2.2
            simp [h1, h2, h3, List.filter_cons, hx]
        · have hx : dinaExact r e = false :=
            Bool.eq_false_iff.mpr fun h => h2 ((dinaExact_iff r e).mp h).2.1
          simp [h1, h2, List.filter_cons, hx]
      · have hx : dinaExact r e = false :=
          Bool.eq_false_iff.mpr fun h => h1 ((dinaExact_iff r e).mp h).1
        simp [h1, List.filter_cons, hx]

theorem dinaGetRecords_ok {resp : DinaResponse} {l : List Record}
    (h : dinaGetRecords resp = .ok l) : l = dinaParseRecords resp.data := by
  unfold dinaGetRecords at h
  split at h
  · exact (Except.ok.injEq _ _).mp h.symm ▸ rfl
  · exact absurd h (by simp)

theorem dinaDeleteCallOf_isDelete (r : Record) :
    (dinaDeleteCallOf r).isDelete = true := by
  unfold dinaDeleteCallOf
  split <;> rfl

theorem dinaAddCallOf_isAdd (r : Record) : (dinaAddCallOf r).isAdd = true := by
  unfold dinaAddCallOf
  split <;> rfl

theorem dinaDeleteRecords_calls (resp : Nat → DinaResponse) :
    ∀ (l : List Record) (k : Nat),
      ∃ n, (dinaDeleteRecords resp k l).2 = (l.take n).map dinaDeleteCallOf := by
  intro l
  induction l with
  | nil => exact fun _ => ⟨0, rfl⟩
  | cons r rest ih =>
    intro k
    by_cases hsupp : r.type ≠ "TXT" ∧ r.type ≠ "A"
    · exact ⟨0, by simp [dinaDeleteRecords, hsupp]⟩
    · by_cases hok : (resp k).message = "Success."
      · obtain ⟨n, hn⟩ := ih (k + 1)
        rcases hres : dinaDeleteRecords resp (k + 1) rest with ⟨res, calls⟩
        have hcalls : calls = (rest.take n).map dinaDeleteCallOf := by
          rw [hres] at hn; exact hn
        refine ⟨n + 1, ?_⟩
        cases res <;> simp [dinaDeleteRecords, hsupp, hok, hres, hcalls]
      · exact ⟨1, by simp [dinaDeleteRecords, hsupp, hok]⟩

theorem dinaAppendLoop_calls (resp : Nat → DinaResponse) :
    ∀ (l : List Record) (k : Nat),
      ∀ c ∈ (dinaAppendLoop resp k l).2, c.isAdd = true := by
  intro l
  induction l with
  | nil => intro k c hc; exact absurd hc (by simp [dinaAppendLoop])
  | cons r rest ih =>
    intro k c hc
    by_cases hsupp : r.type ≠ "TXT" ∧ r.type ≠ "A"
    · simp [dinaAppendLoop, hsupp] at hc
    · by_cases hok : (resp k).message = "Success."
      · rcases hres : dinaAppendLoop resp (k + 1) rest with ⟨res, calls⟩
        have hmem : ∀ x ∈ calls, DinaCall.isAdd x = true := by
          intro x hx
          exact ih (k + 1) x (by rw [hres]; exact hx)
        cases res <;>
          · simp only [dinaAppendLoop, hsupp, hok, hres, if_false, if_true,
              reduceIte] at hc
            rcases List.mem_cons.mp hc with h | h
            · exact h ▸ dinaAddCallOf_isAdd r
            · exact hmem c h
      · simp only [dinaAppendLoop, hsupp, hok, reduceIte] at hc
        rcases List.mem_cons.mp hc with h | h
        · exact h ▸ dinaAddCallOf_isAdd r
        · exact absurd h (by simp)

theorem dinaAppendRecords_calls (resp : Nat → DinaResponse)
    (l : List Record) (k : Nat) :
    ∀ c ∈ (dinaAppendRecords resp k l).2, c.isAdd = true := by
  intro c hc
  unfold dinaAppendRecords at hc
  split at hc
  · exact absurd hc (by simp)
  · exact dinaAppendLoop_calls resp l k c hc

theorem nsAppendLoop_calls_noDelete (zone : String) (resp : Nat → NsReply) :
    ∀ (l : List Record) (k : Nat),
      ∀ c ∈ (nsAppendLoop zone resp k l).2, c.isDelete = false := by
  intro l
  induction l with
  | nil => intro k c hc; exact absurd hc (by simp [nsAppendLoop])
  | cons r rest ih =>
    intro k c hc
    by_cases hok : (resp k).code = 300
    · rcases hres : nsAppendLoop zone resp (k + 1) rest with ⟨res, calls⟩
      have hmem : ∀ x ∈ calls, NsCall.isDelete x = false := by
        intro x hx
        exact ih (k + 1) x (by rw [hres]; exact hx)
      cases res <;>
        · simp only [nsAppendLoop, hok, hres, if_true, reduceIte] at hc
          rcases List.mem_cons.mp hc with h | h
          · exact h ▸ rfl
          · exact hmem c h
    · simp only [nsAppendLoop, hok, reduceIte] at hc
      rcases List.mem_cons.mp hc with h | h
      · exact h ▸ rfl
      · exact absurd h (by simp)

theorem nsUpdateLoop_calls_noDelete (zone : String) (resp : Nat → NsReply) :
    ∀ (l : List Record) (k : Nat),
      ∀ c ∈ (nsUpdateLoop zone resp k l).2, c.isDelete = false := by
  intro l
  induction l with
  | nil => intro k c hc; exact absurd hc (by simp [nsUpdateLoop])
  | cons r rest ih =>
    intro k c hc
    by_cases hok : (resp k).code = 300
    · rcases hres : nsUpdateLoop zone resp (k + 1) rest with ⟨res, calls⟩
      have hmem : ∀ x ∈ calls, NsCall.isDelete x = false := by
        intro x hx
        exact ih (k + 1) x (by rw [hres]; exact hx)
      cases res <;>
        · simp only [nsUpdateLoop, hok, hres, if_true, reduceIte] at hc
          rcases List.mem_cons.mp hc with h | h
          · exact h ▸ rfl
          · exact hmem c h
    · simp only [nsUpdateLoop, hok, reduceIte] at hc
      rcases List.mem_cons.mp hc with h | h
      · exact h ▸ rfl
      · exact absurd h (by simp)

theorem nsAppendLoop_failAt (zone : String) (resp : Nat → NsReply) :
    ∀ (l : List Record) (k i : Nat), i < l.length →
      (∀ j, j < i → (resp (k + j)).code = 300) →
      (resp (k + i)).code ≠ 300 →
      nsAppendLoop zone resp k l =
        (.error (.appendFailed zone (resp (k + i)).code (resp (k + i)).detail),
         (l.take (i + 1)).map (NsCall.add zone)) := by
  intro l
  induction l with
  | nil => intro k i hi _ _; exact absurd hi (by simp)
  | cons r rest ih =>
    intro k i hi hpre hfail
    cases i with
    | zero =>
      have hf : (resp k).code ≠ 300 := by simpa using hfail
      simp [nsAppendLoop, hf]
    | succ n =>
      have h0 : (resp k).code = 300 := by simpa using hpre 0 (Nat.succ_pos n)
      have hpre2 : ∀ j, j < n → (resp (k + 1 + j)).code = 300 := by
        intro j hj
        have h := hpre (j + 1) (Nat.succ_lt_succ hj)
        rwa [show k + (j + 1) = k + 1 + j by omega] at h
      have hfail2 : (resp (k + 1 + n)).code ≠ 300 := by
        rwa [show k + (n + 1) = k + 1 + n by omega] at hfail
      have hrec := ih (k + 1) n (by simpa using hi) hpre2 hfail2
      rw [show k + (n + 1) = k + 1 + n by omega]
      simp [nsAppendLoop, h0, hrec]

theorem dinaAppendLoop_failAt (resp : Nat → DinaResponse) :
    ∀ (l : List Record) (k i : Nat) (hi : i < l.length),
      (∀ r ∈ l, r.type = "TXT" ∨ r.type = "A") →
      (∀ j, j < i → (resp (k + j)).message = "Success.") →
      (resp (k + i)).message ≠ "Success." →
      dinaAppendLoop resp k l =
        (.error (.createFailed (l.get ⟨i, hi⟩).type (resp (k + i)).responseCode),
         (l.take (i + 1)).map dinaAddCallOf) := by
  intro l
  induction l with
  | nil => intro k i hi _ _ _; exact absurd hi (by simp)
  | cons r rest ih =>
    intro k i hi hsupp hpre hfail
    have hr := hsupp r (List.mem_cons_self r rest)
    have hrsupp : ¬(r.type ≠ "TXT" ∧ r.type ≠ "A") := by
      rcases hr with h | h
      · exact fun hc => hc.1 h
      · exact fun hc => hc.2 h
    cases i with
    | zero =>
      have hf : (resp k).message ≠ "Success." := by simpa using hfail
      simp [dinaAppendLoop, hrsupp, hf]
    | succ n =>
      have h0 : (resp k).message = "Success." := by simpa using hpre 0 (Nat.succ_pos n)
      have hpre2 : ∀ j, j < n → (resp (k + 1 + j)).message = "Success." := by
        intro j hj
        have h := hpre (j + 1) (Nat.succ_lt_succ hj)
        rwa [show k + (j + 1) = k + 1 + j by omega] at h
      have hfail2 : (resp (k + 1 + n)).message ≠ "Success." := by
        rwa [show k + (n + 1) = k + 1 + n by omega] at hfail
      have hrec := ih (k + 1) n (by simpa using hi)
        (fun q hq => hsupp q (List.mem_cons_of_mem r hq)) hpre2 hfail2
      rw [show k + (n + 1) = k + 1 + n by omega]
      simp [dinaAppendLoop, hrsupp, h0, hrec]

theorem dinaAppendLoop_unsupported (resp : Nat → DinaResponse)
    (hresp : ∀ i, (resp i).message = "Success.") :
    ∀ (pre : List Record) (r : Record) (rest : List Record) (k : Nat),
      (∀ p ∈ pre, p.type = "TXT" ∨ p.type = "A") →
      r.type ≠ "TXT" → r.type ≠ "A" →
      dinaAppendLoop resp k (pre ++ r :: rest) =
        (.error (.unsupportedCreate r.type), pre.map dinaAddCallOf) := by
  intro pre
  induction pre with
  | nil =>
    intro r rest k _ h1 h2
    simp [dinaAppendLoop, h1, h2]
  | cons p pre2 ih =>
    intro r rest k hpre h1 h2
    have hp := hpre p (List.mem_cons_self p pre2)
    have hpsupp : ¬(p.type ≠ "TXT" ∧ p.type ≠ "A") := by
      rcases hp with h | h
      · exact fun hc => hc.1 h
      · exact fun hc => hc.2 h
    have hrec := ih r rest (k + 1)
      (fun q hq => hpre q (List.mem_cons_of_mem p hq)) h1 h2
    simp [dinaAppendLoop, hpsupp, hresp k, hrec]

theorem dinaDeleteRecords_unsupported (resp : Nat → DinaResponse)
    (hresp : ∀ i, (resp i).message = "Success.") :
    ∀ (pre : List Record) (r : Record) (rest : List Record) (k : Nat),
      (∀ p ∈ pre, p.type = "TXT" ∨ p.type = "A") →
      r.type ≠ "TXT" → r.type ≠ "A" →
      dinaDeleteRecords resp k (pre ++ r :: rest) =
        (.error (.unsupportedDelete r.type), pre.map dinaDeleteCallOf) := by
  intro pre
  induction pre with
  | nil =>
    intro r rest k _ h1 h2
    simp [dinaDeleteRecords, h1, h2]
  | cons p pre2 ih =>
    intro r rest k hpre h1 h2
    have hp := hpre p (List.mem_cons_self p pre2)
    have hpsupp : ¬(p.type ≠ "TXT" ∧ p.type ≠ "A") := by
      rcases hp with h | h
      · exact fun hc => hc.1 h
      · exact fun hc => hc.2 h
    have hrec := ih r rest (k + 1)
      (fun q hq => hpre q (List.mem_cons_of_mem p hq)) h1 h2
    simp [dinaDeleteRecords, hpsupp, hresp k, hrec]

theorem nsClassify_error_of (ids : List String) :
    ∀ records : List Record,
      (∃ r ∈ records, r.id ≠ "" ∧ ids.contains r.id = false) →
      ∃ e, nsClassify ids records = .error e := by
  intro records
  induction records with
  | nil => rintro ⟨r, hr, -, -⟩; exact absurd hr (by simp)
  | cons r0 rest ih =>
    rintro ⟨r, hr, hid, hmem⟩
    by_cases h0 : r0.id = ""
    · have hrrest : r ∈ rest := by
        rcases List.mem_cons.mp hr with h | h
        · exact absurd (h ▸ h0) hid
        · exact h
      obtain ⟨e, he⟩ := ih ⟨r, hrrest, hid, hmem⟩
      exact ⟨e, by simp [nsClassify, h0, he]⟩
    · by_cases hc : ids.contains r0.id = true
      · have hrrest : r ∈ rest := by
          rcases List.mem_cons.mp hr with h | h
          · rw [h] at hmem; rw [hmem] at hc; exact absurd hc (by simp)
          · exact h
        obtain ⟨e, he⟩ := ih ⟨r, hrrest, hid, hmem⟩
        have hc2 : r0.id ∈ ids := by simpa using hc
        exact ⟨e, by simp [nsClassify, h0, hc2, he]⟩
      · have hc2 : r0.id ∉ ids := by simpa using hc
        exact ⟨r0, by simp [nsClassify, h0, hc2]⟩

/-! ## Claim theorems -/

/-- C1, counterexample: in Dinahosting SetRecords the position of the
exact match does matter.  The fetched existing list contains a record
matching the desired record ⟨a, A, 1⟩ exactly on (name, type, value) —
at position 1, behind an unrelated record — yet SetRecords issues a
Create call (Domain_Zone_AddTypeA a → 1) for it. -/
theorem c1_unchanged_position_counterexample :
    (⟨"", "A", "a", "1", 0, 0⟩ : Record) ∈ dinaParseRecords (dinaRespTwoA 0).data ∧
    DinaCall.addA "a" "1" ∈ (dinaSetRecords dinaRespTwoA [⟨"", "A", "a", "1", 0, 0⟩]).2 := by
  constructor
  · decide
  · decide

/-- C1, amended: for a desired record d with empty id, Dinahosting
SetRecords classifies d as Unchanged — issuing no Delete and no Create
vendor call for d — exactly when the FIRST record of the fetched
existing list matches d on (name, type, value); an exact match at a
later position does not prevent re-creation.  Here, for a singleton
desired list whose record exactly matches the head of the existing
list, the inner loop contributes nothing to toDelete/results and the
only vendor call made is the initial Domain_Zone_GetAll. -/
theorem c1_unchanged_first_position :
    ∀ (resp : Nat → DinaResponse) (d e : Record) (rest : List Record),
      (resp 0).message = "Success." →
      dinaParseRecords (resp 0).data = e :: rest →
      d.name = e.name → d.type = e.type → d.value = e.value →
      dinaInner d (e :: rest) false = ([], []) ∧
      (dinaSetRecords resp [d]).2 = [DinaCall.getAll] := by
  intro resp d e rest h0 hparse h1 h2 h3
  have hinner : dinaInner d (e :: rest) false = ([], []) := by
    rw [dinaInner_cons]
    simp [h1, h2, h3]
  refine ⟨hinner, ?_⟩
  have hget : dinaGetRecords (resp 0) = .ok (e :: rest) := by
    unfold dinaGetRecords
    rw [if_pos h0, hparse]
  have hplan : dinaPlanLoop (e :: rest) [d] = ([], []) := by
    simp [dinaPlanLoop, hinner]
  unfold dinaSetRecords
  simp [hget, hplan, dinaAppendRecords]

/-- C1, witness for the amended theorem at a concrete vendor state. -/
theorem c1_unchanged_first_position_witness :
    dinaInner ⟨"", "A", "test", "1.1.1.1", 0, 0⟩
        [⟨"", "A", "test", "1.1.1.1", 0, 0⟩] false = ([], []) ∧
    (dinaSetRecords dinaRespOneA [⟨"", "A", "test", "1.1.1.1", 0, 0⟩]).2 =
      [DinaCall.getAll] :=
  c1_unchanged_first_position dinaRespOneA
    ⟨"", "A", "test", "1.1.1.1", 0, 0⟩ ⟨"", "A", "test", "1.1.1.1", 0, 0⟩ []
    rfl rfl rfl rfl rfl

/-- C2, code bug: SetRecords is not idempotent.  On a vendor state that
already equals the desired list (the state left behind by a first
successful SetRecords of the same list), the classification marks the
record Unchanged, `results` stays empty, and the unconditional
AppendRecords call rejects the empty list — the call returns the
"empty input Record list" error instead of succeeding, after issuing
only the initial Domain_Zone_GetAll (zero Delete and zero Create
calls). -/
theorem c2_idempotence_code_bug_eval :
    dinaSetRecords dinaRespOneA [⟨"", "A", "test", "1.1.1.1", 0, 0⟩] =
      (.error .emptyInput, [DinaCall.getAll]) := by
  rfl

/-- C3, counterexample: the NameSilo adapter does not implement
delete-then-create.  For the spec's changed-value scenario — desired
⟨test, A, 2.2.2.2⟩ with empty id against existing
⟨id 5, test, A, 1.1.1.1⟩ — its SetRecords issues no Delete at all, only
a single dnsAddRecord (leaving the old record in place); and for the
same desired record carrying id 5 it issues a single in-place
dnsUpdateRecord, which is neither a Delete nor a Create. -/
theorem c3_delete_then_create_counterexample :
    (nsSetRecords "example.com." nsRespChanged
        [⟨"", "A", "test", "2.2.2.2", 0, 0⟩]).2 =
      [NsCall.list "example.com.",
       NsCall.add "example.com." ⟨"", "A", "test", "2.2.2.2", 0, 0⟩] ∧
    List.filter NsCall.isDelete
        (nsSetRecords "example.com." nsRespChanged
          [⟨"", "A", "test", "2.2.2.2", 0, 0⟩]).2 = [] ∧
    (nsSetRecords "example.com." nsRespChanged
        [⟨"5", "A", "test", "2.2.2.2", 0, 0⟩]).2 =
      [NsCall.list "example.com.",
       NsCall.update "example.com." ⟨"5", "A", "test", "2.2.2.2", 0, 0⟩] :=
  ⟨rfl, rfl, rfl⟩

/-- C3, amended: the delete-then-create behaviour is the Dinahosting
adapter's.  When the head of the fetched existing list matches the
desired record on (name, type) with a different value and the vendor
calls succeed, Dinahosting SetRecords issues exactly one Delete of the
old record followed by exactly one Create of the new value — never an
in-place update (no such call exists in its vocabulary) — and returns
the new record. -/
theorem c3_dinahosting_delete_then_create :
    ∀ (resp : Nat → DinaResponse) (d e : Record) (rest : List Record),
      (resp 0).message = "Success." →
      dinaParseRecords (resp 0).data = e :: rest →
      d.name = e.name → d.type = e.type → d.value ≠ e.value →
      (d.type = "A" ∨ d.type = "TXT") →
      (resp 1).message = "Success." →
      (resp 2).message = "Success." →
      dinaSetRecords resp [d] =
        (.ok [d], [DinaCall.getAll, dinaDeleteCallOf e, dinaAddCallOf d]) := by
  intro resp d e rest h0 hparse h1 h2 h3 htype hok1 hok2
  have hinner : dinaInner d (e :: rest) false = ([e], [d]) := by
    rw [dinaInner_cons]
    simp [h1, h2, h3]
  have hget : dinaGetRecords (resp 0) = .ok (e :: rest) := by
    unfold dinaGetRecords
    rw [if_pos h0, hparse]
  have hplan : dinaPlanLoop (e :: rest) [d] = ([e], [d]) := by
    simp [dinaPlanLoop, hinner]
  have hdsupp : ¬(d.type ≠ "TXT" ∧ d.type ≠ "A") := by
    rcases htype with h | h
    · exact fun hc => hc.2 h
    · exact fun hc => hc.1 h
  have hesupp : ¬(e.type ≠ "TXT" ∧ e.type ≠ "A") := by
    rw [← h2]
    exact hdsupp
  have hdel : dinaDeleteRecords resp 1 [e] = (.ok [e], [dinaDeleteCallOf e]) := by
    simp [dinaDeleteRecords, hesupp, hok1]
  have happ : dinaAppendRecords resp 2 [d] = (.ok [d], [dinaAddCallOf d]) := by
    simp [dinaAppendRecords, dinaAppendLoop, hdsupp, hok2]
  unfold dinaSetRecords
  simp [hget, hplan, hdel, happ]

/-- C3, witness for the amended theorem on the spec's concrete
changed-value scenario (Dinahosting carries no vendor ids, so the
existing record's id is empty). -/
theorem c3_dinahosting_delete_then_create_witness :
    dinaSetRecords dinaRespOneA [⟨"", "A", "test", "2.2.2.2", 0, 0⟩] =
      (.ok [⟨"", "A", "test", "2.2.2.2", 0, 0⟩],
       [DinaCall.getAll,
        dinaDeleteCallOf ⟨"", "A", "test", "1.1.1.1", 0, 0⟩,
        dinaAddCallOf ⟨"", "A", "test", "2.2.2.2", 0, 0⟩]) :=
  c3_dinahosting_delete_then_create dinaRespOneA
    ⟨"", "A", "test", "2.2.2.2", 0, 0⟩ ⟨"", "A", "test", "1.1.1.1", 0, 0⟩ []
    rfl rfl rfl rfl (by decide) (Or.inl rfl) rfl rfl

/-- C6, counterexample: on success Dinahosting SetRecords does not
return Unchanged ++ Created.  With existing zone [⟨test, A, 1.1.1.1⟩]
and desired [⟨test, A, 1.1.1.1⟩, ⟨new, TXT, abc⟩] the call succeeds but
returns only the newly created record: the Unchanged record is omitted
entirely (and the created record carries no vendor-assigned id — the
adapter never reads one from the create response). -/
theorem c6_result_shape_counterexample :
    (dinaSetRecords dinaRespOneA
        [⟨"", "A", "test", "1.1.1.1", 0, 0⟩, ⟨"", "TXT", "new", "abc", 0, 0⟩]).1 =
      .ok [⟨"", "TXT", "new", "abc", 0, 0⟩] ∧
    (⟨"", "A", "test", "1.1.1.1", 0, 0⟩ : Record) ∉
      ([⟨"", "TXT", "new", "abc", 0, 0⟩] : List Record) := by
  constructor
  · rfl
  · decide

/-- C6, amended: on success Dinahosting SetRecords returns exactly the
desired records classified Changed or New — those not exactly matching
the head of the fetched existing list — in desired-list order and with
the caller's fields unchanged (in particular with no vendor-assigned
id); Unchanged records are omitted from the result. -/
theorem c6_success_result_is_changed_and_new :
    ∀ (resp : Nat → DinaResponse) (records res : List Record),
      (dinaSetRecords resp records).1 = .ok res →
      res = (match dinaParseRecords (resp 0).data with
             | [] => []
             | e :: _ => records.filter fun d => !(dinaExact d e)) := by
  intro resp records res h
  unfold dinaSetRecords at h
  split at h
  · exact absurd h (by simp)
  · split at h
    next e heq => exact absurd h (by simp)
    next existing heq =>
      have hex : existing = dinaParseRecords (resp 0).data := dinaGetRecords_ok heq
      subst hex
      rw [← dinaPlanLoop_results (dinaParseRecords (resp 0).data) records]
      split at h
      · split at h
        next => exact absurd h (by simp)
        next =>
          split at h
          next => exact absurd h (by simp)
          next =>
            have h2 : Except.ok ((dinaPlanLoop (dinaParseRecords (resp 0).data) records).2)
                = Except.ok res := h
            exact (Except.ok.inj h2).symm
      · split at h
        next => exact absurd h (by simp)
        next =>
          have h2 : Except.ok ((dinaPlanLoop (dinaParseRecords (resp 0).data) records).2)
              = Except.ok res := h
          exact (Except.ok.inj h2).symm

/-- C6, witness for the amended theorem at a concrete successful call. -/
theorem c6_success_result_is_changed_and_new_witness :
    ([⟨"", "TXT", "new", "abc", 0, 0⟩] : List Record) =
      (match dinaParseRecords (dinaRespOneA 0).data with
       | [] => []
       | e :: _ =>
         [(⟨"", "A", "test", "1.1.1.1", 0, 0⟩ : Record),
          ⟨"", "TXT", "new", "abc", 0, 0⟩].filter fun d => !(dinaExact d e)) :=
  c6_success_result_is_changed_and_new dinaRespOneA
    [⟨"", "A", "test", "1.1.1.1", 0, 0⟩, ⟨"", "TXT", "new", "abc", 0, 0⟩]
    [⟨"", "TXT", "new", "abc", 0, 0⟩] rfl

/-- C9: every record produced by Dinahosting GetRecords has an empty id
and zero ttl and priority — the adapter never populates vendor record
identifiers, so id-based matching of desired records against this
existing state can never succeed. -/
theorem c9_dina_getrecords_no_ids :
    ∀ (resp : DinaResponse) (rs : List Record),
      dinaGetRecords resp = .ok rs →
      ∀ r ∈ rs, r.id = "" ∧ r.ttl = 0 ∧ r.priority = 0 := by
  intro resp rs h r hr
  rw [dinaGetRecords_ok h] at hr
  unfold dinaParseRecords at hr
  rcases List.mem_map.mp hr with ⟨a, _, ha⟩
  rw [← ha]
  exact ⟨rfl, rfl, rfl⟩

/-- C9, witness at a concrete vendor response. -/
theorem c9_dina_getrecords_no_ids_witness :
    (⟨"", "A", "host", "1.2.3.4", 0, 0⟩ : Record).id = "" ∧
    (⟨"", "A", "host", "1.2.3.4", 0, 0⟩ : Record).ttl = 0 ∧
    (⟨"", "A", "host", "1.2.3.4", 0, 0⟩ : Record).priority = 0 :=
  c9_dina_getrecords_no_ids ⟨"Success.", 0, [⟨"A", "host", "", "1.2.3.4", "", ""⟩]⟩
    [⟨"", "A", "host", "1.2.3.4", 0, 0⟩] rfl
    ⟨"", "A", "host", "1.2.3.4", 0, 0⟩ (by decide)

/-- C4: when the desired list contains a record with a non-empty id that
is not the id of any record in the fetched current zone state, NameSilo
SetRecords fails with the unknown-record error and the only vendor call
it has made is the initial dnsListRecords — no Delete, Create or Update
call is issued. -/
theorem c4_unknown_id_fails_before_vendor_writes :
    ∀ (zone : String) (resp : Nat → NsReply) (records : List Record) (r : Record),
      (resp 0).code = 300 →
      r ∈ records →
      r.id ≠ "" →
      ((nsParseRecords (resp 0).records).map Record.id).contains r.id = false →
      ∃ e, nsSetRecords zone resp records =
        (.error (.recordNotExists e), [NsCall.list zone]) := by
  intro zone resp records r h0 hr hid hmem
  obtain ⟨e, he⟩ := nsClassify_error_of _ records ⟨r, hr, hid, hmem⟩
  exact ⟨e, by simp [nsSetRecords, h0, he]⟩

/-- C4, witness: a desired record with unknown id 9 against a zone whose
only record has id 5. -/
theorem c4_unknown_id_fails_before_vendor_writes_witness :
    ∃ e, nsSetRecords "example.com." nsRespChanged [⟨"9", "A", "x", "1", 0, 0⟩] =
      (.error (.recordNotExists e), [NsCall.list "example.com."]) :=
  c4_unknown_id_fails_before_vendor_writes "example.com." nsRespChanged
    [⟨"9", "A", "x", "1", 0, 0⟩] ⟨"9", "A", "x", "1", 0, 0⟩
    rfl (by decide) (by decide) (by decide)

/-- C5: within one SetRecords call a Delete is never issued after a
Create.  For Dinahosting the call trace is the initial GetAll followed
by the Delete calls — which are exactly the per-record delete calls of
an initial segment of the computed toDelete slice, in input order —
followed only by Create calls; NameSilo SetRecords issues no Delete
call at all. -/
theorem c5_deletes_precede_creates :
    (∀ (resp : Nat → DinaResponse) (records : List Record),
      ∃ (dcalls acalls : List DinaCall) (n : Nat),
        ((dinaSetRecords resp records).2 = [] ∨
          (dinaSetRecords resp records).2 = DinaCall.getAll :: (dcalls ++ acalls)) ∧
        dcalls = ((dinaToDelete resp records).take n).map dinaDeleteCallOf ∧
        (∀ c ∈ acalls, c.isAdd = true))
    ∧ (∀ (zone : String) (resp : Nat → NsReply) (records : List Record),
        ∀ c ∈ (nsSetRecords zone resp records).2, c.isDelete = false) := by
  constructor
  · intro resp records
    unfold dinaSetRecords
    split
    · exact ⟨[], [], 0, Or.inl rfl, by simp, by simp⟩
    · split
      next e heq =>
        exact ⟨[], [], 0, Or.inr (by simp), by simp [dinaToDelete, heq], by simp⟩
      next existing heq =>
        split
        · split
          next e dcalls hdel =>
            obtain ⟨n, hn⟩ :=
              dinaDeleteRecords_calls resp (dinaPlanLoop existing records).1 1
            rw [hdel] at hn
            refine ⟨dcalls, [], n, Or.inr (by simp), ?_, by simp⟩
            simpa [dinaToDelete, heq] using hn
          next u dcalls hdel =>
            obtain ⟨n, hn⟩ :=
              dinaDeleteRecords_calls resp (dinaPlanLoop existing records).1 1
            rw [hdel] at hn
            have hdc : dcalls =
                ((dinaToDelete resp records).take n).map dinaDeleteCallOf := by
              simpa [dinaToDelete, heq] using hn
            have hac : ∀ c ∈ (dinaAppendRecords resp (1 + dcalls.length)
                (dinaPlanLoop existing records).2).2, c.isAdd = true :=
              dinaAppendRecords_calls resp (dinaPlanLoop existing records).2
                (1 + dcalls.length)
            split
            next e acalls happ =>
              refine ⟨dcalls, acalls, n, Or.inr rfl, hdc, ?_⟩
              rw [happ] at hac
              exact hac
            next u2 acalls happ =>
              refine ⟨dcalls, acalls, n, Or.inr rfl, hdc, ?_⟩
              rw [happ] at hac
              exact hac
        · have hac : ∀ c ∈ (dinaAppendRecords resp 1
              (dinaPlanLoop existing records).2).2, c.isAdd = true :=
            dinaAppendRecords_calls resp (dinaPlanLoop existing records).2 1
          split
          next e acalls happ =>
            refine ⟨[], acalls, 0, Or.inr (by simp), by simp, ?_⟩
            rw [happ] at hac
            exact hac
          next u acalls happ =>
            refine ⟨[], acalls, 0, Or.inr (by simp), by simp, ?_⟩
            rw [happ] at hac
            exact hac
  · intro zone resp records c hc
    unfold nsSetRecords at hc
    split at hc
    · split at hc
      next r heq =>
        rcases List.mem_cons.mp hc with h | h
        · exact h ▸ rfl
        · exact absurd h (by simp)
      next newRecords changedRecords heq =>
        have haux : ∀ l k, ∀ x ∈ (nsAppendLoop zone resp k l).2,
            NsCall.isDelete x = false := fun l k => nsAppendLoop_calls_noDelete zone resp l k
        have huux : ∀ l k, ∀ x ∈ (nsUpdateLoop zone resp k l).2,
            NsCall.isDelete x = false := fun l k => nsUpdateLoop_calls_noDelete zone resp l k
        split at hc
        next e acalls happ =>
          rcases List.mem_cons.mp hc with h | h
          · exact h ▸ rfl
          · have hx := haux newRecords 1 c
            rw [happ] at hx
            exact hx h
        next created acalls happ =>
          split at hc
          next e ucalls hupd =>
            rcases List.mem_cons.mp hc with h | h
            · exact h ▸ rfl
            · rcases List.mem_append.mp h with h2 | h2
              · have hx := haux newRecords 1 c
                rw [happ] at hx
                exact hx h2
              · have hx := huux changedRecords (1 + acalls.length) c
                rw [hupd] at hx
                exact hx h2
          next updated ucalls hupd =>
            rcases List.mem_cons.mp hc with h | h
            · exact h ▸ rfl
            · rcases List.mem_append.mp h with h2 | h2
              · have hx := haux newRecords 1 c
                rw [happ] at hx
                exact hx h2
              · have hx := huux changedRecords (1 + acalls.length) c
                rw [hupd] at hx
                exact hx h2
    · rcases List.mem_cons.mp hc with h | h
      · exact h ▸ rfl
      · exact absurd h (by simp)

/-- C7: unsupported record types are rejected before any vendor HTTP
call for the offending record.  Dinahosting AppendRecords and
DeleteRecords (types other than TXT and A; with all earlier records
supported and succeeding) stop at the first unsupported record with the
unsupported-type error, the issued calls being exactly those for the
earlier records; the ddnss setRecord helper (types other than TXT, A
and AAAA) returns the unsupported-type error having issued no call at
all. -/
theorem c7_unsupported_type_no_call :
    (∀ (resp : Nat → DinaResponse) (k : Nat) (pre : List Record)
        (r : Record) (rest : List Record),
      (∀ i, (resp i).message = "Success.") →
      (∀ p ∈ pre, p.type = "TXT" ∨ p.type = "A") →
      r.type ≠ "TXT" → r.type ≠ "A" →
      dinaAppendRecords resp k (pre ++ r :: rest) =
        (.error (.unsupportedCreate r.type), pre.map dinaAddCallOf))
    ∧ (∀ (resp : Nat → DinaResponse) (k : Nat) (pre : List Record)
        (r : Record) (rest : List Record),
      (∀ i, (resp i).message = "Success.") →
      (∀ p ∈ pre, p.type = "TXT" ∨ p.type = "A") →
      r.type ≠ "TXT" → r.type ≠ "A" →
      dinaDeleteRecords resp k (pre ++ r :: rest) =
        (.error (.unsupportedDelete r.type), pre.map dinaDeleteCallOf))
    ∧ (∀ (zone : String) (record : Record) (clear ok : Bool),
      record.type ≠ "TXT" → record.type ≠ "A" → record.type ≠ "AAAA" →
      ddnssSetRecord zone record clear ok =
        (.error (.unsupportedType record.type), [])) := by
  refine ⟨?_, ?_, ?_⟩
  · intro resp k pre r rest hresp hpre h1 h2
    have hne : pre ++ r :: rest ≠ [] := by simp
    rw [dinaAppendRecords, if_neg hne]
    exact dinaAppendLoop_unsupported resp hresp pre r rest k hpre h1 h2
  · intro resp k pre r rest hresp hpre h1 h2
    exact dinaDeleteRecords_unsupported resp hresp pre r rest k hpre h1 h2
  · intro zone record clear ok h1 h2 h3
    simp [ddnssSetRecord, h1, h2, h3]

/-- C7, witness: an MX record behind a TXT record in a Dinahosting
create, a CNAME record in a Dinahosting delete, and an NS record in a
ddnss set. -/
theorem c7_unsupported_type_no_call_witness :
    dinaAppendRecords dinaRespEmptyOk 0
        ([⟨"", "TXT", "a", "v", 0, 0⟩] ++ ⟨"", "MX", "b", "w", 0, 0⟩ :: []) =
      (.error (.unsupportedCreate "MX"),
       [⟨"", "TXT", "a", "v", 0, 0⟩].map dinaAddCallOf) ∧
    dinaDeleteRecords dinaRespEmptyOk 0
        ([] ++ ⟨"", "CNAME", "c", "x", 0, 0⟩ :: []) =
      (.error (.unsupportedDelete "CNAME"), List.map dinaDeleteCallOf []) ∧
    ddnssSetRecord "zone.com." ⟨"", "NS", "w", "v", 0, 0⟩ false true =
      (.error (.unsupportedType "NS"), []) := by
  obtain ⟨hA, hD, hS⟩ := c7_unsupported_type_no_call
  refine ⟨?_, ?_, ?_⟩
  · exact hA dinaRespEmptyOk 0 [⟨"", "TXT", "a", "v", 0, 0⟩]
      ⟨"", "MX", "b", "w", 0, 0⟩ [] (fun _ => rfl) (by decide) (by decide) (by decide)
  · exact hD dinaRespEmptyOk 0 [] ⟨"", "CNAME", "c", "x", 0, 0⟩ []
      (fun _ => rfl) (by decide) (by decide) (by decide)
  · exact hS "zone.com." ⟨"", "NS", "w", "v", 0, 0⟩ false true
      (by decide) (by decide) (by decide)

/-- C8, counterexample: the create error does not identify the failing
record.  Two NameSilo AppendRecords calls failing on two different
records (different name, type and value) return the very same error
value — it carries only the zone and the vendor's status code and
detail. -/
theorem c8_error_identifies_record_counterexample :
    (nsAppendRecords "z." nsRespFailAll [⟨"", "A", "x", "1", 0, 0⟩]).1 =
      (nsAppendRecords "z." nsRespFailAll [⟨"", "TXT", "y", "2", 0, 0⟩]).1 ∧
    (⟨"", "A", "x", "1", 0, 0⟩ : Record) ≠ ⟨"", "TXT", "y", "2", 0, 0⟩ := by
  exact ⟨rfl, by decide⟩

/-- C8, amended: create operations are fail-fast.  If the i-th create
call fails (all earlier ones succeeding), the returned call trace is
exactly one Create call per record up to and including the i-th — later
records are never attempted and, the trace containing only Create
calls, earlier creations are not rolled back.  The error reports the
zone and vendor status (NameSilo) or the record type and vendor code
(Dinahosting), but does not identify the specific failing record. -/
theorem c8_create_fail_fast :
    (∀ (zone : String) (resp : Nat → NsReply) (records : List Record) (i : Nat),
      i < records.length →
      (∀ j, j < i → (resp j).code = 300) →
      (resp i).code ≠ 300 →
      nsAppendRecords zone resp records =
        (.error (.appendFailed zone (resp i).code (resp i).detail),
         (records.take (i + 1)).map (NsCall.add zone)))
    ∧ (∀ (resp : Nat → DinaResponse) (records : List Record) (i : Nat)
        (hi : i < records.length),
      (∀ r ∈ records, r.type = "TXT" ∨ r.type = "A") →
      (∀ j, j < i → (resp j).message = "Success.") →
      (resp i).message ≠ "Success." →
      dinaAppendRecords resp 0 records =
        (.error (.createFailed (records.get ⟨i, hi⟩).type (resp i).responseCode),
         (records.take (i + 1)).map dinaAddCallOf)) := by
  constructor
  · intro zone resp records i hi hpre hfail
    have h := nsAppendLoop_failAt zone resp records 0 i hi
      (by intro j hj; simpa using hpre j hj) (by simpa using hfail)
    simpa [nsAppendRecords] using h
  · intro resp records i hi hsupp hpre hfail
    have hne : records ≠ [] := by
      intro h
      rw [h] at hi
      exact absurd hi (by simp)
    have h := dinaAppendLoop_failAt resp records 0 i hi hsupp
      (by intro j hj; simpa using hpre j hj) (by simpa using hfail)
    rw [dinaAppendRecords, if_neg hne]
    simpa using h

/-- C8, witness: the second of three scheduled creates fails; the third
is never attempted, for both adapters. -/
theorem c8_create_fail_fast_witness :
    nsAppendRecords "z." nsRespFailSecond
        [⟨"", "A", "a", "1", 0, 0⟩, ⟨"", "A", "b", "2", 0, 0⟩,
         ⟨"", "A", "c", "3", 0, 0⟩] =
      (.error (.appendFailed "z." (nsRespFailSecond 1).code (nsRespFailSecond 1).detail),
       ([(⟨"", "A", "a", "1", 0, 0⟩ : Record), ⟨"", "A", "b", "2", 0, 0⟩,
         ⟨"", "A", "c", "3", 0, 0⟩].take 2).map (NsCall.add "z.")) ∧
    dinaAppendRecords dinaRespFailSecond 0
        [⟨"", "A", "a", "1", 0, 0⟩, ⟨"", "A", "b", "2", 0, 0⟩,
         ⟨"", "A", "c", "3", 0, 0⟩] =
      (.error (.createFailed "A" (dinaRespFailSecond 1).responseCode),
       ([(⟨"", "A", "a", "1", 0, 0⟩ : Record), ⟨"", "A", "b", "2", 0, 0⟩,
         ⟨"", "A", "c", "3", 0, 0⟩].take 2).map dinaAddCallOf) := by
  obtain ⟨hNs, hDina⟩ := c8_create_fail_fast
  constructor
  · exact hNs "z." nsRespFailSecond _ 1 (by decide)
      (by intro j hj; have hj0 : j = 0 := Nat.lt_one_iff.mp hj; subst hj0; rfl)
      (by decide)
  · exact hDina dinaRespFailSecond _ 1 (by decide) (by decide)
      (by intro j hj; have hj0 : j = 0 := Nat.lt_one_iff.mp hj; subst hj0; rfl)
      (by decide)

/-- C10: on an all-success vendor, NameSilo DeleteRecords returns
exactly its input record list, unchanged and in input order, and its
call trace is one dnsDeleteRecord call per input record built from that
record's id alone. -/
theorem c10_delete_returns_input :
    ∀ (zone : String) (resp : Nat → NsReply) (records : List Record) (k : Nat),
      (∀ i, (resp i).code = 300) →
      nsDeleteRecords zone resp k records =
        (.ok records, records.map fun r => NsCall.delete zone r.id) := by
  intro zone resp records
  induction records with
  | nil => intro k _; rfl
  | cons r rest ih =>
    intro k hok
    simp [nsDeleteRecords, hok k, ih (k + 1) hok]

/-- C10, witness: two records with distinct fields pass through
unchanged while only their ids reach the vendor. -/
theorem c10_delete_returns_input_witness :
    nsDeleteRecords "z." nsRespAllOk 0
        [⟨"1", "A", "a", "1", 5, 7⟩, ⟨"2", "TXT", "b", "2", 0, 0⟩] =
      (.ok [⟨"1", "A", "a", "1", 5, 7⟩, ⟨"2", "TXT", "b", "2", 0, 0⟩],
       [NsCall.delete "z." "1", NsCall.delete "z." "2"]) :=
  c10_delete_returns_input "z." nsRespAllOk
    [⟨"1", "A", "a", "1", 5, 7⟩, ⟨"2", "TXT", "b", "2", 0, 0⟩] 0 (fun _ => rfl)

end LibdnsProviders
